import Mathlib

/-!
Verification development for the otel-node-baggage-propagation repository.

The system has three roles: a producer that stamps queue messages with
baggage (publisher source file), a queue consumer that re-injects the
baggage into a downstream HTTP call, and an HTTP receiver that extracts
baggage from request headers (both in `src/src/api-service.ts`).

We shallowly embed:
  * the Context Carrier Codec (spec section 4.1; the actual codec is the
    OpenTelemetry propagator library, not part of `src/`, so it is
    modelled from the spec),
  * the Downstream Call Adapter `callApiService` and the
    `POST /process` handler of the receiver,
  * the per-message Consumer Pipeline `processMessage` and the delivery
    callback of `consumeMessages`,
  * the Connection Supervisor `connectWithRetry`,
  * the Producer Pipeline `publishMessages` / `publishMessageWithBaggage`.

Effectful steps (network answers, the clock, broker responses) are passed
in as explicit parameters; the observable side effects of a run (HTTP
calls issued, ack/nack resolutions, connection attempts, sleeps) are
returned as explicit action traces.
-/

set_option autoImplicit false

/-- Trace reference: opaque trace id and span id, as in spec section 3. -/
structure TraceRef where
  traceId : String
  spanId : String
deriving DecidableEq

/-- Baggage: string key/value entries (`api.propagation` baggage entries). -/
abbrev Baggage := List (String × String)

/-- Context: baggage plus an optional trace reference (spec section 3). -/
structure Context where
  baggage : Baggage
  trace : Option TraceRef
deriving DecidableEq

/-- Carrier: flat string-keyed mapping, the wire form of a Context. -/
abbrev Carrier := List (String × String)

/-- Carrier key for one baggage entry: the implementation-chosen stable
prefix scheme of spec section 4.1 (one carrier key per baggage entry),
here the prefix `bg:` prepended to the entry key. -/
def bgKey (k : String) : String := ⟨'b' :: 'g' :: ':' :: k.data⟩

/-- Modelled from the spec: section 4.1 `encode(context) -> carrier` of the
Context Carrier Codec (the OpenTelemetry propagator, which `src/` only
calls via `api.propagation.inject`). Trace-reference fields go to the
well-known keys `traceid` and `spanid`; each baggage entry goes to one
prefixed carrier key. Pure function. -/
def encode (c : Context) : Carrier :=
  (match c.trace with
   | some t => [("traceid", t.traceId), ("spanid", t.spanId)]
   | none => []) ++ c.baggage.map (fun e => (bgKey e.1, e.2))

/-- Inverse of the `bg:` prefix scheme: recognise a baggage carrier key and
recover the entry key; any other key is not a baggage key. -/
def stripBg (s : String) : Option String :=
  if s.data.take 3 = ['b', 'g', ':'] then some ⟨s.data.drop 3⟩ else none

/-- Modelled from the spec: section 4.1 `decode(carrier) -> context` of the
Context Carrier Codec. Unknown keys are ignored rather than raising an
error; an empty carrier yields an empty Context. -/
def decode (carrier : Carrier) : Context :=
  { baggage := carrier.filterMap (fun e => (stripBg e.1).map (fun k => (k, e.2)))
    trace :=
      match List.lookup "traceid" carrier, List.lookup "spanid" carrier with
      | some t, some s => some ⟨t, s⟩
      | _, _ => none }

/-!
Downstream Call Adapter and HTTP receiver, from `src/src/api-service.ts`.

Message payloads cross `JSON.parse` / `JSON.stringify`, and the TypeScript
`Message` cast is not checked at runtime, so payloads are modelled as flat
JSON objects whose fields may be absent. `JSON.parse` throwing on a
non-JSON body is modelled as the payload being `none`.
-/

/-- Flat JSON value: a number or a string (the shapes occurring in the
`Message` and request bodies of the source). -/
inductive JVal where
  | jnum (n : Int)
  | jstr (s : String)
deriving DecidableEq

/-- Parsed JSON object: fields in source order. -/
abbrev JObj := List (String × JVal)

/-- Rendering of a JSON value by `JSON.stringify`. -/
def JVal.render : JVal → String
  | .jnum n => toString n
  | .jstr s => "\"" ++ s ++ "\""

/-- Rendering of the comma-separated field list by `JSON.stringify`. -/
def renderFields : JObj → String
  | [] => ""
  | [(k, v)] => "\"" ++ k ++ "\":" ++ v.render
  | (k, v) :: rest => "\"" ++ k ++ "\":" ++ v.render ++ "," ++ renderFields rest

/-- Rendering of a JSON object by `JSON.stringify`. -/
def renderObj (o : JObj) : String := "\x7b" ++ renderFields o ++ "\x7d"

/-- One field of a stringified object: `JSON.stringify` drops a field whose
value is `undefined` (a missing lookup). -/
def optField (k : String) : Option JVal → JObj
  | some v => [(k, v)]
  | none => []

/-- Body of the POST issued by `callApiService`: `postData` is
`JSON.stringify` of `messageId`/`timestamp`/`data` read off the parsed
message content (fields may be `undefined` when the payload lacked them,
and are then dropped by `JSON.stringify`). -/
def postDataFields (m : JObj) : JObj :=
  optField "messageId" (List.lookup "id" m) ++
  optField "timestamp" (List.lookup "timestamp" m) ++
  optField "data" (List.lookup "data" m)

/-- Headers prepared by `callApiService` (api-service.ts consumer part,
lines 180-199): `Content-Type`, `Content-Length` of `postData`, then the
carrier produced by `api.propagation.inject` on the active context with
the message baggage merged in (`Object.assign(headers, carrier)`). -/
def builtHeaders (m : JObj) (bag : Option Baggage) (tr : Option TraceRef) :
    List (String × String) :=
  [("Content-Type", "application/json"),
   ("Content-Length", toString (renderObj (postDataFields m)).utf8ByteSize)] ++
  encode { baggage := bag.getD [], trace := tr }

/-- HTTP request as issued by `http.request`: the `options` object plus the
written body. -/
structure HttpRequest where
  hostname : String
  port : Nat
  path : String
  method : String
  headers : List (String × String)
  body : JObj
deriving DecidableEq

/-- Request sent by `callApiService`. The source builds `headers` but the
`headers` field of the `options` object is commented out
(api-service.ts consumer part, line 206: `// headers,`), so `http.request`
is called with no explicit headers: the request carries none of the
prepared headers, in particular none of the propagation carrier. -/
def sentRequest (m : JObj) : HttpRequest :=
  { hostname := "localhost"
    port := 3000
    path := "/process"
    method := "POST"
    headers := []
    body := postDataFields m }

/-- Response of the `POST /process` handler of the receiver (api-service.ts
lines 31-72): extracts baggage from the request context (populated by
auto-instrumentation from the request headers, modelled as decoding the
carrier in the headers), echoes it as `baggageReceived`, and answers
`success: true` with the `messageId` of the request. `processedAt` is
the clock of the receiver, passed explicitly. -/
structure ProcessResponse where
  success : Bool
  messageId : Option JVal
  processedAt : String
  baggageReceived : List (String × String)
deriving DecidableEq

def processEndpoint (req : HttpRequest) (now : String) : ProcessResponse :=
  { success := true
    messageId := List.lookup "messageId" req.body
    processedAt := now
    baggageReceived := (decode req.headers).baggage }

/-!
Consumer Pipeline, from `src/src/api-service.ts` (consumer part):
`processMessage(msg, channel)` and the delivery callback registered by
`consumeMessages`.
-/

/-- Outcome of the downstream HTTP exchange, as seen by `callApiService`:
either the transport errors (the error event of `req`), or a response arrives
with a status code and a body; `parsed` is `some` when the accumulated
body is valid JSON and `none` when `JSON.parse` throws on it. -/
inductive CallResult where
  | transportError (message : String)
  | responseBody (status : Nat) (parsed : Option JObj)
deriving DecidableEq

/-- Resolution of the promise of `callApiService` (api-service.ts lines
211-236): a transport error rejects; a response body that fails JSON
parsing rejects; otherwise the promise resolves. The HTTP status code is
never examined. -/
def callOutcomeOk : CallResult → Bool
  | .transportError _ => false
  | .responseBody _ parsed => parsed.isSome

/-- Observable actions of processing one delivery: the HTTP request
issued by `callApiService`, and the terminal resolutions
`channel.ack(msg)` / `channel.nack(msg, allUpTo, requeue)`. -/
inductive ConsumerAction where
  | httpCall (req : HttpRequest)
  | ack
  | nack (allUpTo requeue : Bool)
deriving DecidableEq

/-- The per-message Consumer Pipeline `processMessage` (api-service.ts
lines 239-299), as the trace of its observable actions. `content` is the
result of `JSON.parse(msg.content.toString())` (`none` when it throws),
`call` is the outcome of the downstream exchange. The body runs in one
`try`/`catch`: any throw before `channel.ack` lands in the `catch`, which
calls `channel.nack(msg, false, true)`; baggage extraction
(`api.propagation.getBaggage`) cannot throw. -/
def processMessage (content : Option JObj) (call : CallResult) : List ConsumerAction :=
  match content with
  | none => [.nack false true]
  | some m =>
      .httpCall (sentRequest m) ::
      (if callOutcomeOk call then [.ack] else [.nack false true])

/-- Delivery callback registered by `consumeMessages` (api-service.ts
lines 155-159): `channel.consume` invokes it with the message or with
`null`; only a non-null message is handed to `processMessage`. -/
def onDelivery (msg : Option (Option JObj)) (call : CallResult) : List ConsumerAction :=
  match msg with
  | none => []
  | some content => processMessage content call

/-- Test for a terminal resolution of the Delivery Handle. -/
def ConsumerAction.isResolution : ConsumerAction → Bool
  | .ack => true
  | .nack _ _ => true
  | .httpCall _ => false

/-- Test for a downstream HTTP call. -/
def ConsumerAction.isHttpCall : ConsumerAction → Bool
  | .httpCall _ => true
  | _ => false

/-!
Connection Supervisor `connectWithRetry`, identical in both the consumer
(api-service.ts lines 121-137) and the publisher (unnamed part_001 lines
13-29). The answer of the broker to each attempt is passed as a function from
attempt number to `Except`; the returned connection is modelled by the
number of the successful attempt.
-/

/-- Observable events of the retry loop: the logged connection attempt
(`attempt n/total`) and the sleep between attempts. -/
inductive ConnEvent where
  | attempt (n total : Nat)
  | sleep (ms : Nat)
deriving DecidableEq

/-- Loop body of `connectWithRetry`: for `attempt` from 1 to `maxRetries`,
log the attempt and try to connect; on success return the connection; on
failure rethrow the error when `attempt == maxRetries`, otherwise sleep
`delayMs` and continue. The trailing `throw` of the final failed-to-connect error
after the loop is reachable only when the loop body never
runs (`maxRetries = 0`, i.e. fuel exhausted). -/
def connectLoop (broker : Nat → Except String Unit) (maxRetries delayMs : Nat) :
    Nat → Nat → List ConnEvent × Except String Nat
  | 0, _ => ([], .error "Failed to connect to RabbitMQ")
  | fuel + 1, attempt =>
    match broker attempt with
    | .ok _ => ([.attempt attempt maxRetries], .ok attempt)
    | .error e =>
      if attempt = maxRetries then ([.attempt attempt maxRetries], .error e)
      else
        let rest := connectLoop broker maxRetries delayMs fuel (attempt + 1)
        (.attempt attempt maxRetries :: .sleep delayMs :: rest.1, rest.2)

/-- Model of `connectWithRetry(maxRetries, delayMs)`: run the loop from attempt 1. -/
def connectWithRetry (broker : Nat → Except String Unit) (maxRetries delayMs : Nat) :
    List ConnEvent × Except String Nat :=
  connectLoop broker maxRetries delayMs maxRetries 1

/-- Attempt numbers logged in an event trace, in order. -/
def attemptsOf (evs : List ConnEvent) : List Nat :=
  evs.filterMap (fun e => match e with | .attempt n _ => some n | .sleep _ => none)

/-- Test for a sleep event. -/
def isSleepEv : ConnEvent → Bool
  | .sleep _ => true
  | .attempt _ _ => false

/-- Closed interval `[a, a+1, ..., b]` of attempt numbers. -/
def listFromTo (a b : Nat) : List Nat :=
  if a ≤ b then a :: listFromTo (a + 1) b else []
termination_by b + 1 - a
decreasing_by omega

/-!
Producer Pipeline, from the publisher source (`src/unnamed/part_001`):
`publishMessages` and `publishMessageWithBaggage`. `Date.now()` at the
call for message `n` is `time n`; `iso` renders a clock value the way
`new Date().toISOString()` does at that instant; `ok n` tells whether
publishing message `n` succeeds or throws.
-/

/-- The `Message` interface of the publisher. -/
structure Message where
  id : Nat
  timestamp : String
  data : String
deriving DecidableEq, Inhabited

/-- One published queue message: the JSON payload plus the baggage of the
context the publish ran in (injected into the queue carrier by
auto-instrumentation). -/
structure PublishedMsg where
  payload : Message
  baggage : Baggage
deriving DecidableEq, Inhabited

/-- The `baggageEntries` built by `publishMessageWithBaggage` (publisher lines
68-73); `now` is `Date.now()` at this call, so `session.id` is computed
per call. The top-level active context carries no prior baggage, so the
`setEntry` fold produces exactly these entries. -/
def baggageEntries (now : Nat) (messageNumber : Nat) : Baggage :=
  [("user.id", "user-" ++ toString (1000 + messageNumber)),
   ("request.source", "api-gateway"),
   ("session.id", "session-" ++ toString now),
   ("message.number", toString messageNumber)]

/-- Model of `publishMessageWithBaggage(channel, messageNumber)` (publisher lines
65-110): builds the baggage, sets it on the context, and publishes the
message `id`/`timestamp`/`data` within that context. Errors are logged
and rethrown. -/
def publishMessageWithBaggage (iso : Nat → String) (now : Nat) (messageNumber : Nat) :
    PublishedMsg :=
  { payload :=
      { id := messageNumber
        timestamp := iso now
        data := "Message " ++ toString messageNumber }
    baggage := baggageEntries now messageNumber }

/-- Publish loop over the remaining sequence numbers: a successful publish
appends the message and continues after the inter-message sleep; a throw
aborts the rest. Returns (published messages, attempted numbers, first
failing number if any). -/
def runPublishes (iso : Nat → String) (time : Nat → Nat) (ok : Nat → Bool) :
    List Nat → List PublishedMsg × List Nat × Option Nat
  | [] => ([], [], none)
  | n :: rest =>
    if ok n then
      let r := runPublishes iso time ok rest
      (publishMessageWithBaggage iso (time n) n :: r.1, n :: r.2.1, r.2.2)
    else ([], [n], some n)

/-- Model of `publishMessages()` (publisher lines 31-63): publishes messages 1..5 in
order; a publish failure is caught, reported, and ends the process via
`process.exit(1)`; when every publish succeeds the run completes, closes
the connection, and the one-shot process exits normally with code 0.
Returns (published messages, attempted numbers, exit code). -/
def publishMessages (iso : Nat → String) (time : Nat → Nat) (ok : Nat → Bool) :
    List PublishedMsg × List Nat × Nat :=
  let r := runPublishes iso time ok [1, 2, 3, 4, 5]
  (r.1, r.2.1, match r.2.2 with | none => 0 | some _ => 1)

/-!
Concrete inputs used by counterexamples and witnesses.
-/

/-- Message content of the end-to-end scenario of spec section 8. -/
def m1 : JObj :=
  [("id", .jnum 1), ("timestamp", .jstr "2024-01-01T00:00:00Z"),
   ("data", .jstr "Message 1")]

/-- Baggage of the end-to-end scenario of spec section 8. -/
def bag1 : Baggage := [("user.id", "user-1001"), ("message.number", "1")]

/-- The HTTP 500 body of the receiver (`api-service.ts` line 70). -/
def errBody : JObj := [("error", .jstr "Internal server error")]

/-- Broker that refuses the first two attempts, then accepts. -/
def brokerW (j : Nat) : Except String Unit :=
  if j ≤ 2 then .error ("refused " ++ toString j) else .ok ()

/-- Broker that refuses every attempt. -/
def brokerFail (j : Nat) : Except String Unit := .error ("refused " ++ toString j)

/-- Error message of attempt `j` for both concrete brokers. -/
def errW (j : Nat) : String := "refused " ++ toString j

/-- Concrete ISO renderer for witnesses. -/
def isoW (now : Nat) : String := "iso-" ++ toString now

/-- Concrete clock for witnesses: message `n` is published at time 2000·n. -/
def timeW (n : Nat) : Nat := 2000 * n

/-- Publish outcome where message 3 fails. -/
def okW (n : Nat) : Bool := n != 3

/-- Published messages of a fully successful concrete run. -/
def runW : List PublishedMsg := (publishMessages isoW timeW (fun _ => true)).1

/-- Message at position `i` of the concrete successful run. -/
def msgAt (i : Nat) : PublishedMsg := runW.getD i default

theorem bgKey_data (k : String) : (bgKey k).data = 'b' :: 'g' :: ':' :: k.data := by
  cases k
  rfl

theorem stripBg_bgKey (k : String) : stripBg (bgKey k) = some k := by
  cases k
  rfl

theorem stripBg_traceid : stripBg "traceid" = none := by decide

theorem stripBg_spanid : stripBg "spanid" = none := by decide

theorem traceid_ne_bgKey (k : String) : (("traceid" : String) == bgKey k) = false := by
  apply beq_eq_false_iff_ne.mpr
  intro h
  have hd : ("traceid" : String).data.head? = (bgKey k).data.head? := by rw [h]
  rw [bgKey_data] at hd
  simp only [List.head?_cons] at hd
  exact absurd hd (by decide)

theorem spanid_ne_bgKey (k : String) : (("spanid" : String) == bgKey k) = false := by
  apply beq_eq_false_iff_ne.mpr
  intro h
  have hd : ("spanid" : String).data.head? = (bgKey k).data.head? := by rw [h]
  rw [bgKey_data] at hd
  simp only [List.head?_cons] at hd
  exact absurd hd (by decide)

theorem lookup_traceid_mapped (l : Baggage) :
    List.lookup "traceid" (l.map (fun e => (bgKey e.1, e.2))) = none := by
  induction l with
  | nil => rfl
  | cons e t ih => simp [List.lookup, traceid_ne_bgKey e.1, ih]

theorem lookup_spanid_mapped (l : Baggage) :
    List.lookup "spanid" (l.map (fun e => (bgKey e.1, e.2))) = none := by
  induction l with
  | nil => rfl
  | cons e t ih => simp [List.lookup, spanid_ne_bgKey e.1, ih]

theorem filterMap_strip_mapped (l : Baggage) :
    List.filterMap (fun e => (stripBg e.1).map (fun k => (k, e.2)))
      (l.map (fun e => (bgKey e.1, e.2))) = l := by
  induction l with
  | nil => rfl
  | cons e t ih => simp [stripBg_bgKey, ih]

theorem filterMap_strip_comp (l : Baggage) :
    List.filterMap ((fun e => Option.map (fun k => (k, e.2)) (stripBg e.1)) ∘
      fun e => (bgKey e.1, e.2)) l = l := by
  induction l with
  | nil => rfl
  | cons e t ih => simp [Function.comp, stripBg_bgKey, ih]

/-- C4: for every Context `c` with zero or more baggage entries (including
entries with empty-string values and keys containing punctuation),
decoding the carrier produced by encoding `c` yields a Context whose
baggage entries equal the entries of `c` exactly and whose trace
reference equals the trace of `c`. -/
theorem c4_codec_round_trip (c : Context) : decode (encode c) = c := by
  obtain ⟨bag, tr⟩ := c
  cases tr with
  | none =>
      simp [encode, decode, filterMap_strip_mapped, filterMap_strip_comp,
        lookup_traceid_mapped, lookup_spanid_mapped]
  | some t =>
      simp [encode, decode, List.lookup, stripBg_traceid, stripBg_spanid,
        filterMap_strip_mapped, filterMap_strip_comp, lookup_traceid_mapped,
        lookup_spanid_mapped]

/-- C1: the claim says the POST issued by `callApiService` carries the
propagation headers, so the receiver echoes the same baggage in
`baggageReceived`. The source builds those headers (the carrier entries
are in `builtHeaders`) but the `headers` field of the request options is
commented out, so the sent request carries no headers at all and the
`baggageReceived` of the receiver is empty. Evaluated at the end-to-end
scenario input: message 1 with baggage `user.id = "user-1001"`,
`message.number = "1"`. -/
theorem c1_headers_dropped :
    (bgKey "user.id", "user-1001") ∈ builtHeaders m1 (some bag1) none ∧
    (bgKey "message.number", "1") ∈ builtHeaders m1 (some bag1) none ∧
    (sentRequest m1).headers = [] ∧
    (processEndpoint (sentRequest m1) "2024-01-01T00:00:01Z").baggageReceived = [] ∧
    (processEndpoint (sentRequest m1) "2024-01-01T00:00:01Z").baggageReceived ≠ bag1 := by
  decide

/-- C2 counterexample: a downstream response with HTTP status 500 whose
body is valid JSON (the own 500 body of the receiver) resolves the
promise of the adapter, so the consumer acks the message instead of nacking it: the
status code is never examined. -/
theorem c2_http500_json_acked :
    callOutcomeOk (.responseBody 500 (some errBody)) = true ∧
    processMessage (some m1) (.responseBody 500 (some errBody)) =
      [.httpCall (sentRequest m1), .ack] ∧
    ConsumerAction.nack false true ∉ processMessage (some m1) (.responseBody 500 (some errBody)) := by
  decide

/-- C2 amended: a transport-level error and a non-JSON response body (and
only those) surface as the single failure signal of `callApiService`, and
on that signal the message is nacked with requeue=true; the HTTP status
is not examined, so a non-2xx response with a JSON body counts as
success. -/
theorem c2_failure_signal_amended (m : JObj) (call : CallResult)
    (h : callOutcomeOk call = false) :
    processMessage (some m) call = [.httpCall (sentRequest m), .nack false true] ∧
    (∀ c : CallResult, callOutcomeOk c = false ↔
      ((∃ e, c = .transportError e) ∨ ∃ s, c = .responseBody s none)) := by
  constructor
  · simp [processMessage, h]
  · intro c
    cases c with
    | transportError e => simp [callOutcomeOk]
    | responseBody s parsed => cases parsed <;> simp [callOutcomeOk]

/-- C2 witness: a transport error on the scenario message is nacked with
requeue=true. -/
theorem c2_failure_signal_witness :
    processMessage (some m1) (.transportError "ECONNREFUSED") =
      [.httpCall (sentRequest m1), .nack false true] :=
  (c2_failure_signal_amended m1 (.transportError "ECONNREFUSED") (by decide)).1

/-- C3: every non-null delivery entering `processMessage` resolves its
Delivery Handle exactly once — the action trace contains exactly one
resolution, and the trace ends with either an ack or a
nack-with-requeue, on every success and failure path (JSON parse
failure, downstream transport error, non-JSON response, success). -/
theorem c3_exactly_one_resolution (content : Option JObj) (call : CallResult) :
    (processMessage content call).countP ConsumerAction.isResolution = 1 ∧
    ((processMessage content call).getLast? = some .ack ∨
      (processMessage content call).getLast? = some (.nack false true)) := by
  cases content with
  | none => simp [processMessage, ConsumerAction.isResolution]
  | some m =>
      by_cases h : callOutcomeOk call = true
      · simp [processMessage, h, ConsumerAction.isResolution]
      · simp [processMessage, h, ConsumerAction.isResolution]

/-- C6 counterexample: the payload `\x7b\x7d` (valid JSON missing the
required fields `id`, `timestamp`, `data`) is not rejected: no field
validation happens after `JSON.parse`, the downstream HTTP call is
attempted, and with a successful downstream exchange the message is
acked, not nacked. -/
theorem c6_missing_fields_counterexample :
    (processMessage (some []) (.responseBody 200 (some [("success", .jstr "true")]))).any
      ConsumerAction.isHttpCall = true ∧
    ConsumerAction.nack false true ∉
      processMessage (some []) (.responseBody 200 (some [("success", .jstr "true")])) ∧
    processMessage (some []) (.responseBody 200 (some [("success", .jstr "true")])) =
      [.httpCall (sentRequest []), .ack] := by
  decide

/-- C6 amended: a message whose body is not valid JSON is nacked with
requeue=true and no downstream HTTP call is attempted (the failure is
caught in the try/catch of that message, so it is not fatal to the
consumer); a body that is valid JSON always proceeds to the downstream
call, even when the required fields are missing. -/
theorem c6_malformed_payload_amended :
    (∀ call : CallResult,
      processMessage none call = [.nack false true] ∧
      (processMessage none call).any ConsumerAction.isHttpCall = false) ∧
    (∀ (m : JObj) (call : CallResult), ∃ rest,
      processMessage (some m) call = .httpCall (sentRequest m) :: rest) := by
  refine ⟨fun call => ⟨rfl, rfl⟩, fun m call => ⟨_, rfl⟩⟩

/-- C9: when the queue client hands the delivery callback a null message
(consumer-cancelled signal), the callback performs no processing and
resolves no Delivery Handle: its action trace is empty, whatever the
environment would have answered. -/
theorem c9_null_delivery_noop (call : CallResult) : onDelivery none call = [] := rfl

theorem listFromTo_of_le (a b : Nat) (h : a ≤ b) :
    listFromTo a b = a :: listFromTo (a + 1) b := by
  rw [listFromTo, if_pos h]

theorem listFromTo_of_gt (a b : Nat) (h : b < a) : listFromTo a b = [] := by
  rw [listFromTo, if_neg (by omega)]

theorem listFromTo_self (a : Nat) : listFromTo a a = [a] := by
  rw [listFromTo_of_le a a le_rfl, listFromTo_of_gt (a + 1) a (by omega)]

theorem connectLoop_all_fail (broker : Nat → Except String Unit)
    (R d : Nat) (err : Nat → String)
    (hb : ∀ j, 1 ≤ j → j ≤ R → broker j = .error (err j)) :
    ∀ fuel a, 1 ≤ a → a ≤ R → a + fuel = R + 1 →
      attemptsOf (connectLoop broker R d fuel a).1 = listFromTo a R ∧
      (connectLoop broker R d fuel a).2 = .error (err R) ∧
      (∀ e ∈ (connectLoop broker R d fuel a).1, isSleepEv e = true → e = .sleep d) ∧
      (connectLoop broker R d fuel a).1.countP isSleepEv = R - a := by
  intro fuel
  induction fuel with
  | zero => intro a h1 h2 h3; omega
  | succ f ih =>
      intro a h1 h2 h3
      have hba : broker a = .error (err a) := hb a h1 h2
      by_cases hR : a = R
      · subst hR
        refine ⟨?_, ?_, ?_, ?_⟩ <;>
          simp [connectLoop, hba, attemptsOf, isSleepEv, listFromTo_self]
      · have hlt : a < R := lt_of_le_of_ne h2 hR
        have ih2 := ih (a + 1) (by omega) (by omega) (by omega)
        refine ⟨?_, ?_, ?_, ?_⟩
        · simp only [connectLoop, hba, if_neg hR, attemptsOf, List.filterMap_cons]
          rw [listFromTo_of_le a R h2]
          simpa [attemptsOf] using ih2.1
        · simpa [connectLoop, hba, if_neg hR] using ih2.2.1
        · intro e he hse
          simp only [connectLoop, hba, if_neg hR, List.mem_cons] at he
          rcases he with rfl | rfl | he
          · simp [isSleepEv] at hse
          · rfl
          · exact ih2.2.2.1 e he hse
        · have hc := ih2.2.2.2
          simp [connectLoop, hba, if_neg hR, List.countP_cons, isSleepEv, hc]
          omega

theorem connectLoop_first_ok (broker : Nat → Except String Unit)
    (R d s : Nat) (err : Nat → String)
    (hs : broker s = .ok ()) (hsR : s ≤ R)
    (hb : ∀ j, 1 ≤ j → j < s → broker j = .error (err j)) :
    ∀ fuel a, 1 ≤ a → a ≤ s → a + fuel = R + 1 →
      attemptsOf (connectLoop broker R d fuel a).1 = listFromTo a s ∧
      (connectLoop broker R d fuel a).2 = .ok s ∧
      (∀ e ∈ (connectLoop broker R d fuel a).1, isSleepEv e = true → e = .sleep d) ∧
      (connectLoop broker R d fuel a).1.countP isSleepEv = s - a := by
  intro fuel
  induction fuel with
  | zero => intro a h1 h2 h3; omega
  | succ f ih =>
      intro a h1 h2 h3
      by_cases has : a = s
      · subst has
        refine ⟨?_, ?_, ?_, ?_⟩ <;>
          simp [connectLoop, hs, attemptsOf, isSleepEv, listFromTo_self]
      · have hlt : a < s := lt_of_le_of_ne h2 has
        have hba : broker a = .error (err a) := hb a h1 hlt
        have haR : a ≠ R := by omega
        have ih2 := ih (a + 1) (by omega) (by omega) (by omega)
        refine ⟨?_, ?_, ?_, ?_⟩
        · simp only [connectLoop, hba, if_neg haR, attemptsOf, List.filterMap_cons]
          rw [listFromTo_of_le a s h2]
          simpa [attemptsOf] using ih2.1
        · simpa [connectLoop, hba, if_neg haR] using ih2.2.1
        · intro e he hse
          simp only [connectLoop, hba, if_neg haR, List.mem_cons] at he
          rcases he with rfl | rfl | he
          · simp [isSleepEv] at hse
          · rfl
          · exact ih2.2.2.1 e he hse
        · have hc := ih2.2.2.2
          simp [connectLoop, hba, if_neg haR, List.countP_cons, isSleepEv, hc]
          omega

/-- C5: `connectWithRetry` makes at most `maxRetries` sequential attempts
separated by constant `delayMs` sleeps, logging each attempt with its
number. If the broker refuses the first `k < maxRetries` attempts and
accepts the next, it returns the connection of attempt `k+1` (the logged
attempts are exactly 1..k+1, with `k` constant-delay sleeps between
them); if the broker refuses every attempt, it propagates the error of
the last attempt after exactly `maxRetries` logged attempts. -/
theorem c5_connect_retry_bound (broker : Nat → Except String Unit)
    (maxRetries delayMs k : Nat) (err : Nat → String) :
    ((∀ j, 1 ≤ j → j ≤ k → broker j = .error (err j)) → broker (k + 1) = .ok () →
      k + 1 ≤ maxRetries →
      attemptsOf (connectWithRetry broker maxRetries delayMs).1 = listFromTo 1 (k + 1) ∧
      (connectWithRetry broker maxRetries delayMs).2 = .ok (k + 1) ∧
      (∀ e ∈ (connectWithRetry broker maxRetries delayMs).1,
        isSleepEv e = true → e = .sleep delayMs) ∧
      (connectWithRetry broker maxRetries delayMs).1.countP isSleepEv = k) ∧
    ((∀ j, 1 ≤ j → j ≤ maxRetries → broker j = .error (err j)) → 1 ≤ maxRetries →
      attemptsOf (connectWithRetry broker maxRetries delayMs).1 = listFromTo 1 maxRetries ∧
      (connectWithRetry broker maxRetries delayMs).2 = .error (err maxRetries) ∧
      (∀ e ∈ (connectWithRetry broker maxRetries delayMs).1,
        isSleepEv e = true → e = .sleep delayMs) ∧
      (connectWithRetry broker maxRetries delayMs).1.countP isSleepEv = maxRetries - 1) := by
  constructor
  · intro hb hok hk
    have h := connectLoop_first_ok broker maxRetries delayMs (k + 1) err hok hk
      (fun j hj1 hj2 => hb j hj1 (by omega)) maxRetries 1 le_rfl (by omega) (by omega)
    exact ⟨h.1, h.2.1, h.2.2.1, by simpa using h.2.2.2⟩
  · intro hb hR
    have h := connectLoop_all_fail broker maxRetries delayMs err hb
      maxRetries 1 le_rfl hR (by omega)
    exact ⟨h.1, h.2.1, h.2.2.1, h.2.2.2⟩

/-- C5 witness: with a broker refusing attempts 1 and 2 then accepting,
`connectWithRetry` with 4 attempts returns the connection of attempt 3;
with a broker refusing every attempt it propagates the error of attempt
4 after exactly the 4 allowed attempts. -/
theorem c5_connect_retry_witness :
    (connectWithRetry brokerW 4 2000).2 = .ok 3 ∧
    attemptsOf (connectWithRetry brokerW 4 2000).1 = listFromTo 1 3 ∧
    (connectWithRetry brokerFail 4 2000).2 = .error (errW 4) ∧
    attemptsOf (connectWithRetry brokerFail 4 2000).1 = listFromTo 1 4 := by
  have hok := (c5_connect_retry_bound brokerW 4 2000 2 errW).1
    (by intro j h1 h2; interval_cases j <;> rfl) (by rfl) (by omega)
  have hfail := (c5_connect_retry_bound brokerFail 4 2000 3 errW).2
    (by intro j h1 h2; interval_cases j <;> rfl) (by omega)
  exact ⟨hok.2.1, hok.1, hfail.2.1, hfail.1⟩

theorem runPublishes_all_ok (iso : Nat → String) (time : Nat → Nat) (ok : Nat → Bool)
    (l : List Nat) (h : ∀ n ∈ l, ok n = true) :
    runPublishes iso time ok l =
      (l.map (fun n => publishMessageWithBaggage iso (time n) n), l, none) := by
  induction l with
  | nil => rfl
  | cons n rest ih =>
      have hn : ok n = true := h n (List.mem_cons_self n rest)
      have ih2 := ih (fun m hm => h m (List.mem_cons_of_mem n hm))
      simp [runPublishes, hn, ih2]

theorem runPublishes_first_fail (iso : Nat → String) (time : Nat → Nat) (ok : Nat → Bool)
    (pre : List Nat) (n : Nat) (post : List Nat)
    (hpre : ∀ m ∈ pre, ok m = true) (hn : ok n = false) :
    runPublishes iso time ok (pre ++ n :: post) =
      (pre.map (fun j => publishMessageWithBaggage iso (time j) j), pre ++ [n], some n) := by
  induction pre with
  | nil => simp [runPublishes, hn]
  | cons m rest ih =>
      have hm : ok m = true := hpre m (List.mem_cons_self m rest)
      have ih2 := ih (fun x hx => hpre x (List.mem_cons_of_mem m hx))
      simp [runPublishes, hm, ih2]

/-- C8: if publishing a message fails, the producer pipeline aborts the
remaining sequence (later numbers are never attempted), keeps the
already-published prefix (no rollback), and the process exits with code
1; a run in which all five publishes succeed attempts exactly 1..5 and
exits with code 0. -/
theorem c8_abort_on_failure (iso : Nat → String) (time : Nat → Nat) (ok : Nat → Bool) :
    (∀ pre n post, [1, 2, 3, 4, 5] = pre ++ n :: post →
      (∀ m ∈ pre, ok m = true) → ok n = false →
      publishMessages iso time ok =
        (pre.map (fun j => publishMessageWithBaggage iso (time j) j), pre ++ [n], 1)) ∧
    ((∀ n ∈ [1, 2, 3, 4, 5], ok n = true) →
      (publishMessages iso time ok).2.1 = [1, 2, 3, 4, 5] ∧
      (publishMessages iso time ok).2.2 = 0) := by
  constructor
  · intro pre n post hsplit hpre hn
    simp only [publishMessages, hsplit, runPublishes_first_fail iso time ok pre n post hpre hn]
  · intro h
    simp only [publishMessages, runPublishes_all_ok iso time ok _ h]
    exact ⟨trivial, trivial⟩

/-- C8 witness: with message 3 failing, the run publishes messages 1 and
2 only, attempts exactly 1, 2, 3, and exits with code 1; with every
publish succeeding, the run attempts 1..5 and exits 0. -/
theorem c8_abort_on_failure_witness :
    publishMessages isoW timeW okW =
      ([publishMessageWithBaggage isoW (timeW 1) 1,
        publishMessageWithBaggage isoW (timeW 2) 2], [1, 2, 3], 1) ∧
    (publishMessages isoW timeW (fun _ => true)).2.2 = 0 := by
  constructor
  · have h := (c8_abort_on_failure isoW timeW okW).1 [1, 2] 3 [4, 5] rfl
      (by decide) (by decide)
    simpa using h
  · exact ((c8_abort_on_failure isoW timeW (fun _ => true)).2 (by decide)).2

/-- C10: a producer run whose five publishes all succeed publishes exactly
the messages 1..5 in order; message `n` carries payload `id = n`,
`timestamp` the ISO rendering of the clock at its publish, `data` =
"Message n", and baggage `user.id = "user-" ++ toString (1000+n)`,
`request.source = "api-gateway"`, `message.number = toString n` (plus the
per-call `session.id`). -/
theorem c10_successful_run_messages (iso : Nat → String) (time : Nat → Nat)
    (ok : Nat → Bool) (h : ∀ n ∈ [1, 2, 3, 4, 5], ok n = true) :
    publishMessages iso time ok =
      ([{ payload := { id := 1, timestamp := iso (time 1), data := "Message 1" },
          baggage := [("user.id", "user-1001"), ("request.source", "api-gateway"),
            ("session.id", "session-" ++ toString (time 1)), ("message.number", "1")] },
        { payload := { id := 2, timestamp := iso (time 2), data := "Message 2" },
          baggage := [("user.id", "user-1002"), ("request.source", "api-gateway"),
            ("session.id", "session-" ++ toString (time 2)), ("message.number", "2")] },
        { payload := { id := 3, timestamp := iso (time 3), data := "Message 3" },
          baggage := [("user.id", "user-1003"), ("request.source", "api-gateway"),
            ("session.id", "session-" ++ toString (time 3)), ("message.number", "3")] },
        { payload := { id := 4, timestamp := iso (time 4), data := "Message 4" },
          baggage := [("user.id", "user-1004"), ("request.source", "api-gateway"),
            ("session.id", "session-" ++ toString (time 4)), ("message.number", "4")] },
        { payload := { id := 5, timestamp := iso (time 5), data := "Message 5" },
          baggage := [("user.id", "user-1005"), ("request.source", "api-gateway"),
            ("session.id", "session-" ++ toString (time 5)), ("message.number", "5")] }],
       [1, 2, 3, 4, 5], 0) := by
  simp only [publishMessages, runPublishes_all_ok iso time ok _ h]
  rfl

/-- C10 witness: the fully successful concrete run exits 0 and attempts
exactly the numbers 1..5. -/
theorem c10_successful_run_witness :
    (publishMessages isoW timeW (fun _ => true)).2.2 = 0 ∧
    (publishMessages isoW timeW (fun _ => true)).2.1 = [1, 2, 3, 4, 5] := by
  rw [c10_successful_run_messages isoW timeW (fun _ => true) (by decide)]
  exact ⟨rfl, rfl⟩

theorem string_append_left_cancel (s t u : String) (h : s ++ t = s ++ u) : t = u := by
  have hd := congrArg String.data h
  simp only [String.data_append] at hd
  exact String.ext (List.append_cancel_left hd)

/-- C7 counterexample: in a concrete fully successful run whose clock
advances by the 2000 ms inter-message sleep, the first two published
messages carry different `session.id` baggage values — the session
identifier is computed from `Date.now()` inside
`publishMessageWithBaggage`, once per message, not once per run. -/
theorem c7_session_not_constant :
    List.lookup "session.id" (msgAt 0).baggage = some "session-2000" ∧
    List.lookup "session.id" (msgAt 1).baggage = some "session-4000" ∧
    List.lookup "session.id" (msgAt 0).baggage ≠
      List.lookup "session.id" (msgAt 1).baggage := by
  decide

/-- C7 amended: every published message `n` carries the synthetic user
identifier `user.id = "user-" ++ toString (1000+n)`, the static source
tag `request.source = "api-gateway"`, the sequence number
`message.number = toString n`, and a session identifier
`session.id = "session-" ++ toString (time n)` derived from `Date.now()`
at the publish call of that message — so the session identifier is per
message, not per run: two publishes whose clock values render
differently carry different session identifiers. -/
theorem c7_session_per_message_amended (iso : Nat → String) (time : Nat → Nat)
    (ok : Nat → Bool) (h : ∀ n ∈ [1, 2, 3, 4, 5], ok n = true) :
    (∀ n ∈ [1, 2, 3, 4, 5],
      publishMessageWithBaggage iso (time n) n ∈ (publishMessages iso time ok).1 ∧
      List.lookup "session.id" (publishMessageWithBaggage iso (time n) n).baggage =
        some ("session-" ++ toString (time n)) ∧
      List.lookup "user.id" (publishMessageWithBaggage iso (time n) n).baggage =
        some ("user-" ++ toString (1000 + n)) ∧
      List.lookup "request.source" (publishMessageWithBaggage iso (time n) n).baggage =
        some "api-gateway" ∧
      List.lookup "message.number" (publishMessageWithBaggage iso (time n) n).baggage =
        some (toString n)) ∧
    (∀ i j : Nat, toString (time i) ≠ toString (time j) →
      List.lookup "session.id" (publishMessageWithBaggage iso (time i) i).baggage ≠
        List.lookup "session.id" (publishMessageWithBaggage iso (time j) j).baggage) := by
  constructor
  · intro n hn
    refine ⟨?_, ?_, ?_, ?_, ?_⟩
    · simp only [publishMessages, runPublishes_all_ok iso time ok _ h]
      exact List.mem_map_of_mem (fun j => publishMessageWithBaggage iso (time j) j) hn
    · simp [publishMessageWithBaggage, baggageEntries, List.lookup]
    · simp [publishMessageWithBaggage, baggageEntries, List.lookup]
    · simp [publishMessageWithBaggage, baggageEntries, List.lookup]
    · simp [publishMessageWithBaggage, baggageEntries, List.lookup]
  · intro i j hne heq
    simp only [publishMessageWithBaggage, baggageEntries, List.lookup] at heq
    apply hne
    have heq2 : ("session-" ++ toString (time i) : String) =
        "session-" ++ toString (time j) := by
      simpa using heq
    exact string_append_left_cancel "session-" _ _ heq2

/-- C7 witness: in the concrete run with clock 2000·n, messages 1 and 2
(whose clock values render as "2000" and "4000") carry different session
identifiers, and message 1 carries the stated user, source and number
entries. -/
theorem c7_session_per_message_witness :
    List.lookup "session.id" (publishMessageWithBaggage isoW (timeW 1) 1).baggage ≠
      List.lookup "session.id" (publishMessageWithBaggage isoW (timeW 2) 2).baggage ∧
    List.lookup "user.id" (publishMessageWithBaggage isoW (timeW 1) 1).baggage =
      some ("user-" ++ toString (1000 + 1)) := by
  constructor
  · exact (c7_session_per_message_amended isoW timeW (fun _ => true) (by decide)).2
      1 2 (by decide)
  · exact ((c7_session_per_message_amended isoW timeW (fun _ => true) (by decide)).1
      1 (by decide)).2.2.1
